import Mathlib

/-!
Shallow embedding of the pyribs emitter core covered by the repository:
`ribs/emitters/_emitter_base.py` (class `EmitterBase`: bounds processing,
construction, read-only properties, abstract ask/tell) together with the
spec-level model of the parts of the concrete CMA-ME emitters that the
repository's test file exercises but whose source is not present.

Conventions of the embedding:
- Python numbers supplied by the user are modelled as rationals `ℚ`.
- The `-np.inf` / `np.inf` sentinels used by `_process_bounds` are modelled
  by the extended-value type `XVal` (negative infinity, a finite rational,
  positive infinity).
- A numpy array is modelled as an `NpArray`: a dtype tag (from
  `archive.dtype`) together with the list of its elements.  `np.full(n, v,
  dtype=dtype)` becomes a replicated list tagged with `dtype`.
- `None` becomes `Option.none`; a Python exception becomes the error branch
  of `Except`.  `_process_bounds` raises `ValueError`, which the spec calls
  `ConfigurationError`; the error type `ConfigurationError` below records
  which of the two `raise` sites fired.
- The loop `for idx, bnd in enumerate(bounds)` writes only index `idx` of
  the two pre-filled arrays on each iteration (or leaves the ±inf default
  when `bnd is None`), and a raise discards both local arrays; it is
  therefore embedded as a structural recursion that builds the two result
  lists positionally and short-circuits on the first bad entry.
-/

deriving instance DecidableEq for Except

/-- Extended values: the contents of the bound arrays, which hold either a
finite number or one of the `±np.inf` sentinels. -/
inductive XVal where
  | ninf : XVal
  | fin (q : ℚ) : XVal
  | pinf : XVal
deriving DecidableEq, Repr

/-- `a ≤ b` on extended values, as a Boolean. -/
def XVal.leb : XVal → XVal → Bool
  | .ninf, _ => true
  | _, .pinf => true
  | .fin a, .fin b => decide (a ≤ b)
  | _, _ => false

/-- The numeric element types an archive can carry (`archive.dtype`). -/
inductive Dtype where
  | float32 : Dtype
  | float64 : Dtype
deriving DecidableEq, Repr

/-- A dense numpy vector: its dtype tag and its elements. -/
structure NpArray where
  dtype : Dtype
  data : List XVal
deriving DecidableEq, Repr

/-- The two `raise ValueError` sites of `_process_bounds` (the spec's
`ConfigurationError` taxonomy). -/
inductive ConfigurationError where
  | lengthMismatch : ConfigurationError
  | entryNotPair : ConfigurationError
deriving DecidableEq, Repr

/-- A user-supplied bounds argument: `None`, or a sequence whose elements
are each `None` or a sequence of optionally-`None` numbers (the code checks
at runtime that each present element has length 2). -/
abbrev BoundsSpec := Option (List (Option (List (Option ℚ))))

/-- `lower_bounds[idx] = -np.inf if bnd[0] is None else bnd[0]`. -/
def lowerOf (l : List (Option ℚ)) : XVal :=
  match l.getD 0 none with
  | none => .ninf
  | some q => .fin q

/-- `upper_bounds[idx] = np.inf if bnd[1] is None else bnd[1]`. -/
def upperOf (l : List (Option ℚ)) : XVal :=
  match l.getD 1 none with
  | none => .pinf
  | some q => .fin q

/-- The `for idx, bnd in enumerate(bounds)` loop of `_process_bounds`: each
iteration either keeps the pre-filled `(-inf, +inf)` defaults (`bnd is
None`), raises when `len(bnd) != 2`, or writes `bnd`'s two sides at its own
index. -/
def boundsLoop : List (Option (List (Option ℚ))) →
    Except ConfigurationError (List XVal × List XVal)
  | [] => .ok ([], [])
  | bnd :: rest =>
    match bnd with
    | none =>
      match boundsLoop rest with
      | .error e => .error e
      | .ok (lbs, ubs) => .ok (.ninf :: lbs, .pinf :: ubs)
    | some l =>
      if l.length ≠ 2 then .error .entryNotPair
      else
        match boundsLoop rest with
        | .error e => .error e
        | .ok (lbs, ubs) => .ok (lowerOf l :: lbs, upperOf l :: ubs)

namespace EmitterBase

/-- `EmitterBase._process_bounds(bounds, solution_dim, dtype)`: pre-fills
`lower_bounds`/`upper_bounds` with `-inf`/`+inf` at dtype `dtype`, returns
them unchanged when `bounds is None`, raises when `len(bounds) !=
solution_dim`, and otherwise fills both arrays from the per-dimension
entries. -/
def process_bounds (bounds : BoundsSpec) (solution_dim : ℕ) (dtype : Dtype) :
    Except ConfigurationError (NpArray × NpArray) :=
  match bounds with
  | none =>
    .ok (⟨dtype, List.replicate solution_dim .ninf⟩,
         ⟨dtype, List.replicate solution_dim .pinf⟩)
  | some bs =>
    if bs.length ≠ solution_dim then .error .lengthMismatch
    else
      match boundsLoop bs with
      | .error e => .error e
      | .ok (lbs, ubs) => .ok (⟨dtype, lbs⟩, ⟨dtype, ubs⟩)

end EmitterBase

/-- The external archive collaborator, restricted to the surface
`EmitterBase` consumes: its `dtype` attribute (plus an identity so that
distinct archives are distinguishable when stating frame properties). -/
structure Archive where
  dtype : Dtype
  id : ℕ
deriving DecidableEq, Repr

/-- The fields `EmitterBase.__init__` assigns on `self`; the `archive`,
`solution_dim`, `lower_bounds` and `upper_bounds` properties read them
back. -/
structure EmitterBaseState where
  _archive : Archive
  _solution_dim : ℕ
  _lower_bounds : NpArray
  _upper_bounds : NpArray
deriving DecidableEq, Repr

namespace EmitterBase

/-- `EmitterBase.__init__(self, archive, solution_dim, bounds)`: stores the
archive and solution dimension, and the two vectors produced by
`_process_bounds(bounds, solution_dim, archive.dtype)`; an exception from
`_process_bounds` propagates and no instance is produced. -/
def init (archive : Archive) (solution_dim : ℕ) (bounds : BoundsSpec) :
    Except ConfigurationError EmitterBaseState :=
  match process_bounds bounds solution_dim archive.dtype with
  | .error e => .error e
  | .ok (lb, ub) =>
    .ok { _archive := archive, _solution_dim := solution_dim,
          _lower_bounds := lb, _upper_bounds := ub }

/-- The `archive` property: `return self._archive`. -/
def archive (e : EmitterBaseState) : Archive := e._archive

/-- The `solution_dim` property: `return self._solution_dim`. -/
def solution_dim (e : EmitterBaseState) : ℕ := e._solution_dim

/-- The `lower_bounds` property: `return self._lower_bounds`. -/
def lower_bounds (e : EmitterBaseState) : NpArray := e._lower_bounds

/-- The `upper_bounds` property: `return self._upper_bounds`. -/
def upper_bounds (e : EmitterBaseState) : NpArray := e._upper_bounds

end EmitterBase

/-!
Concrete-emitter model.  The CMA-ME emitters (`ImprovementEmitter`,
`RandomDirectionEmitter`, `OptimizingEmitter`) and their shared evolution
strategy are part of this repository but their source files are not
present; only `EmitterBase` and a test that exercises the automatic batch
size are.  The definitions below model the missing surface from the spec,
keeping the evolution-strategy state and its update rules as parameters so
that nothing about them is assumed.
-/

/-- The spec's call-time error taxonomy for `tell()`. -/
inductive ProtocolError where
  | lengthMismatch : ProtocolError
deriving DecidableEq, Repr

/-- Modelled from the spec: a concrete emitter (whose source is not
present) is its inherited `EmitterBase` state together with the
evolution-strategy state `es` that `ask`/`tell` adapt; `ES` is kept
abstract as a type parameter. -/
structure Emitter (ES : Type) where
  base : EmitterBaseState
  es : ES
deriving DecidableEq, Repr

/-- The evaluation results handed to `tell()`: parallel arrays of
solutions, objectives, measures, archive statuses and archive values. -/
structure EvaluationBatch where
  solution_batch : List (List ℚ)
  objective_batch : List ℚ
  measures_batch : List (List ℚ)
  status_batch : List ℕ
  value_batch : List ℚ
deriving DecidableEq, Repr

/-- All parallel arrays of an evaluation batch agree in length. -/
def EvaluationBatch.lengthsAgree (b : EvaluationBatch) : Prop :=
  b.objective_batch.length = b.solution_batch.length ∧
  b.measures_batch.length = b.solution_batch.length ∧
  b.status_batch.length = b.solution_batch.length ∧
  b.value_batch.length = b.solution_batch.length

instance (b : EvaluationBatch) : Decidable b.lengthsAgree := by
  unfold EvaluationBatch.lengthsAgree
  infer_instance

/-- Modelled from the spec: a concrete emitter's `ask()` (source not
present) draws a batch from the evolution-strategy state, consuming
internal randomness; `sampler` stands for the variant's sampling rule.  It
returns the batch and the emitter with only `es` advanced. -/
def Emitter.ask {ES : Type} (e : Emitter ES)
    (sampler : ES → List (List ℚ) × ES) : List (List ℚ) × Emitter ES :=
  let (batch, es) := sampler e.es
  (batch, { e with es := es })

/-- Modelled from the spec: a concrete emitter's `tell()` (source not
present) errors with the spec's `ProtocolError` when the parallel arrays
disagree in length, leaving the emitter unchanged; otherwise it applies the
variant's ranking/adaptation rule `update` to the evolution-strategy state
only.  Returned is the post-call emitter and the raised error, if any. -/
def Emitter.tell {ES : Type} (e : Emitter ES) (b : EvaluationBatch)
    (update : ES → EvaluationBatch → ES) :
    Emitter ES × Option ProtocolError :=
  if b.lengthsAgree then ({ e with es := update e.es b }, none)
  else (e, some .lengthMismatch)

/-- One caller-visible operation on a concrete emitter. -/
inductive EmitterOp (ES : Type) where
  | askOp (sampler : ES → List (List ℚ) × ES) : EmitterOp ES
  | tellOp (b : EvaluationBatch) (update : ES → EvaluationBatch → ES) :
      EmitterOp ES

/-- Run one operation, discarding the caller-facing outputs. -/
def Emitter.applyOp {ES : Type} (e : Emitter ES) : EmitterOp ES → Emitter ES
  | .askOp sampler => (e.ask sampler).2
  | .tellOp b update => (e.tell b update).1

/-- Run a sequence of operations. -/
def Emitter.runOps {ES : Type} (e : Emitter ES) (ops : List (EmitterOp ES)) :
    Emitter ES :=
  ops.foldl Emitter.applyOp e

/-- Modelled from the spec: the default batch size used when none is
supplied at construction (source not present), `4 + floor(3 ·
ln(solution_dim))` clipped to a minimum of 1. -/
noncomputable def defaultBatchSize (solution_dim : ℕ) : ℤ :=
  max 1 (4 + ⌊3 * Real.log solution_dim⌋)

/-- Modelled from the spec: the batch size a concrete emitter ends up with,
given the optional explicit `batch_size` construction argument. -/
noncomputable def resolvedBatchSize (batch_size : Option ℤ)
    (solution_dim : ℕ) : ℤ :=
  match batch_size with
  | some b => b
  | none => defaultBatchSize solution_dim

/-! ### Helper lemmas about the bounds loop -/

/-- The lower bound a per-dimension entry leaves at its index: the ±inf
default for an absent entry, otherwise the pair's lower side. -/
def entryLower : Option (List (Option ℚ)) → XVal
  | none => .ninf
  | some l => lowerOf l

/-- The upper bound a per-dimension entry leaves at its index. -/
def entryUpper : Option (List (Option ℚ)) → XVal
  | none => .pinf
  | some l => upperOf l

lemma boundsLoop_ok (bs : List (Option (List (Option ℚ))))
    (lbs ubs : List XVal) (h : boundsLoop bs = .ok (lbs, ubs)) :
    lbs = bs.map entryLower ∧ ubs = bs.map entryUpper ∧
      ∀ bnd ∈ bs, ∀ l, bnd = some l → l.length = 2 := by
  induction bs generalizing lbs ubs with
  | nil =>
    simp only [boundsLoop, Except.ok.injEq, Prod.mk.injEq] at h
    simp [← h.1, ← h.2]
  | cons bnd rest ih =>
    cases bnd with
    | none =>
      cases hrec : boundsLoop rest with
      | error e => rw [boundsLoop, hrec] at h; exact absurd h (by simp)
      | ok p =>
        obtain ⟨lbs', ubs'⟩ := p
        rw [boundsLoop, hrec] at h
        simp only [Except.ok.injEq, Prod.mk.injEq] at h
        obtain ⟨h1, h2, h3⟩ := ih lbs' ubs' hrec
        subst h1 h2
        refine ⟨by simp [← h.1, entryLower], by simp [← h.2, entryUpper], ?_⟩
        intro b hb l hl
        rcases List.mem_cons.mp hb with hb | hb
        · exact absurd hl (by simp [hb])
        · exact h3 b hb l hl
    | some l =>
      by_cases hlen : l.length ≠ 2
      · rw [boundsLoop, if_pos hlen] at h; exact absurd h (by simp)
      · push_neg at hlen
        cases hrec : boundsLoop rest with
        | error e =>
          rw [boundsLoop, if_neg (by simp [hlen]), hrec] at h
          exact absurd h (by simp)
        | ok p =>
          obtain ⟨lbs', ubs'⟩ := p
          rw [boundsLoop, if_neg (by simp [hlen]), hrec] at h
          simp only [Except.ok.injEq, Prod.mk.injEq] at h
          obtain ⟨h1, h2, h3⟩ := ih lbs' ubs' hrec
          subst h1 h2
          refine ⟨by simp [← h.1, entryLower], by simp [← h.2, entryUpper], ?_⟩
          intro b hb l' hl'
          rcases List.mem_cons.mp hb with hb | hb
          · rw [hb] at hl'
            injection hl' with hl'
            rw [← hl']; exact hlen
          · exact h3 b hb l' hl'

lemma boundsLoop_badEntry (bs : List (Option (List (Option ℚ))))
    (hbad : ∃ bnd ∈ bs, ∃ l, bnd = some l ∧ l.length ≠ 2) :
    boundsLoop bs = .error .entryNotPair := by
  induction bs with
  | nil => simp at hbad
  | cons bnd rest ih =>
    obtain ⟨b, hb, l, hbl, hlen⟩ := hbad
    rcases List.mem_cons.mp hb with hb | hb
    · rw [hb] at hbl
      subst hbl
      rw [boundsLoop, if_pos hlen]
    · have hrec : boundsLoop rest = .error .entryNotPair :=
        ih ⟨b, hb, l, hbl, hlen⟩
      cases bnd with
      | none => rw [boundsLoop, hrec]
      | some l' =>
        by_cases hl' : l'.length ≠ 2
        · rw [boundsLoop, if_pos hl']
        · rw [boundsLoop, if_neg hl', hrec]

lemma XVal.leb_ninf_left (x : XVal) : XVal.leb .ninf x = true := by
  cases x <;> rfl

lemma XVal.leb_pinf_right (x : XVal) : XVal.leb x .pinf = true := by
  cases x <;> rfl

lemma process_bounds_ok_inv (bounds : BoundsSpec) (dim : ℕ) (dtype : Dtype)
    (lb ub : NpArray)
    (h : EmitterBase.process_bounds bounds dim dtype = .ok (lb, ub)) :
    (bounds = none ∧ lb = ⟨dtype, List.replicate dim .ninf⟩ ∧
      ub = ⟨dtype, List.replicate dim .pinf⟩) ∨
    (∃ bs, bounds = some bs ∧ bs.length = dim ∧
      lb.dtype = dtype ∧ ub.dtype = dtype ∧
      boundsLoop bs = .ok (lb.data, ub.data)) := by
  cases bounds with
  | none =>
    left
    simp only [EmitterBase.process_bounds, Except.ok.injEq, Prod.mk.injEq] at h
    exact ⟨rfl, h.1.symm, h.2.symm⟩
  | some bs =>
    right
    refine ⟨bs, rfl, ?_⟩
    rw [EmitterBase.process_bounds] at h
    by_cases hlen : bs.length ≠ dim
    · rw [if_pos hlen] at h; exact absurd h (by simp)
    · push_neg at hlen
      rw [if_neg (by simp [hlen])] at h
      cases hrec : boundsLoop bs with
      | error e => rw [hrec] at h; exact absurd h (by simp)
      | ok p =>
        obtain ⟨lbs, ubs⟩ := p
        rw [hrec] at h
        simp only [Except.ok.injEq, Prod.mk.injEq] at h
        exact ⟨hlen, by rw [← h.1], by rw [← h.2], by rw [← h.1, ← h.2]⟩

/-- Normalized characterization of a successful `_process_bounds` call: the
output dtype tags, and both data vectors as pointwise images of a
normalized entry list (`None` overall bounds behave like a list of `dim`
absent entries). -/
lemma process_bounds_ok_char (bounds : BoundsSpec) (dim : ℕ) (dtype : Dtype)
    (lb ub : NpArray)
    (h : EmitterBase.process_bounds bounds dim dtype = .ok (lb, ub)) :
    lb.dtype = dtype ∧ ub.dtype = dtype ∧
    ∃ bsN : List (Option (List (Option ℚ))),
      bsN.length = dim ∧
      (bounds = none → bsN = List.replicate dim none) ∧
      (∀ bs, bounds = some bs → bsN = bs) ∧
      (∀ bnd ∈ bsN, ∀ l, bnd = some l → l.length = 2) ∧
      lb.data = bsN.map entryLower ∧ ub.data = bsN.map entryUpper := by
  rcases process_bounds_ok_inv bounds dim dtype lb ub h with
    ⟨hb, hlb, hub⟩ | ⟨bs, hbs, hlen, hlbt, hubt, hloop⟩
  · subst hlb hub
    refine ⟨rfl, rfl, List.replicate dim none, List.length_replicate .., 
      fun _ => rfl, fun bs hbs => absurd hbs (by simp [hb]), ?_, ?_, ?_⟩
    · intro bnd hbnd l hl
      rw [List.eq_of_mem_replicate hbnd] at hl
      exact absurd hl (by simp)
    · simp [List.map_replicate, entryLower]
    · simp [List.map_replicate, entryUpper]
  · obtain ⟨h1, h2, h3⟩ := boundsLoop_ok bs lb.data ub.data hloop
    refine ⟨hlbt, hubt, bs, hlen, fun hn => absurd hn (by simp [hbs]),
      ?_, h3, h1, h2⟩
    intro bs' hbs'
    exact Option.some.inj (hbs.symm.trans hbs')

lemma getD_map_entry (f : Option (List (Option ℚ)) → XVal) (d : XVal)
    (bsN : List (Option (List (Option ℚ)))) (i : ℕ) (hi : i < bsN.length) :
    (bsN.map f).getD i d = f (bsN.getD i none) := by
  rw [List.getD_eq_getElem _ _ (by simpa using hi), List.getElem_map,
      List.getD_eq_getElem _ _ hi]

lemma getD_mem_of_lt (bsN : List (Option (List (Option ℚ)))) (i : ℕ)
    (hi : i < bsN.length) : bsN.getD i none ∈ bsN := by
  rw [List.getD_eq_getElem _ _ hi]
  exact List.getElem_mem hi

/-! ### Claims -/

/-- C1, counterexample: the bounds specification `[(5, 1)]` is valid for
`solution_dim = 1` (a length-1 sequence of 2-element pairs of numbers), yet
`_process_bounds` copies the pair through unchecked and returns the
unordered result `lower_bounds[0] = 5 > 1 = upper_bounds[0]`. -/
theorem process_bounds_order_counterexample :
    EmitterBase.process_bounds (some [some [some 5, some 1]]) 1 .float64 =
      .ok (⟨.float64, [.fin 5]⟩, ⟨.float64, [.fin 1]⟩) ∧
    XVal.leb (XVal.fin 5) (XVal.fin 1) = false := by
  decide

/-- C1, amended: for every valid bounds specification in which each pair
with both sides present is ordered (`low ≤ high`), the processor's output
satisfies `lower_bounds[i] ≤ upper_bounds[i]` for every index `i`. -/
theorem process_bounds_lower_le_upper (bounds : BoundsSpec) (dim : ℕ)
    (dtype : Dtype) (lb ub : NpArray)
    (hok : EmitterBase.process_bounds bounds dim dtype = .ok (lb, ub))
    (hord : ∀ bs, bounds = some bs → ∀ bnd ∈ bs, ∀ l, bnd = some l →
      ∀ a b, l.getD 0 none = some a → l.getD 1 none = some b → a ≤ b) :
    ∀ i, i < dim →
      XVal.leb (lb.data.getD i .ninf) (ub.data.getD i .pinf) = true := by
  obtain ⟨-, -, bsN, hlen, hnone, hsome, hpairs, hlb, hub⟩ :=
    process_bounds_ok_char bounds dim dtype lb ub hok
  intro i hi
  have hi' : i < bsN.length := by omega
  rw [hlb, hub, getD_map_entry entryLower .ninf bsN i hi',
      getD_map_entry entryUpper .pinf bsN i hi']
  cases hbsN : bsN.getD i none with
  | none => simp [entryLower, entryUpper, XVal.leb]
  | some l =>
    have hmem : some l ∈ bsN := hbsN ▸ getD_mem_of_lt bsN i hi'
    cases h0 : l.getD 0 none with
    | none =>
      simp only [entryLower, lowerOf, h0]
      exact XVal.leb_ninf_left _
    | some a =>
      cases h1 : l.getD 1 none with
      | none =>
        simp only [entryUpper, upperOf, h1]
        exact XVal.leb_pinf_right _
      | some b =>
        have hab : a ≤ b := by
          cases hbounds : bounds with
          | none =>
            rw [hnone hbounds] at hbsN
            rw [List.getD_eq_getElem _ _ (by simpa using hi)] at hbsN
            simp at hbsN
          | some bs =>
            have hbs := hsome bs hbounds
            subst hbs
            exact hord bsN hbounds (some l) hmem l rfl a b h0 h1
        simp only [entryLower, entryUpper, lowerOf, upperOf, h0, h1, XVal.leb]
        exact decide_eq_true hab

/-- C1, witness for the amended theorem at the specification `[(-1, 1)]`
with `solution_dim = 1`. -/
theorem process_bounds_lower_le_upper_witness :
    XVal.leb
      ((⟨Dtype.float64, [XVal.fin (-1)]⟩ : NpArray).data.getD 0 .ninf)
      ((⟨Dtype.float64, [XVal.fin 1]⟩ : NpArray).data.getD 0 .pinf) = true :=
  process_bounds_lower_le_upper (some [some [some (-1), some 1]]) 1 .float64
    ⟨.float64, [.fin (-1)]⟩ ⟨.float64, [.fin 1]⟩ (by decide)
    (by
      intro bs hbs bnd hbnd l hl a b h0 h1
      injection hbs with hbs
      subst hbs
      rcases List.mem_singleton.mp hbnd with rfl
      injection hl with hl
      subst hl
      simp only [List.getD] at h0 h1
      injection h0 with h0
      injection h1 with h1
      subst h0
      subst h1
      decide)
    0 (by decide)

/-- C2: for every bounds sequence whose length differs from
`solution_dim`, `_process_bounds` raises the length-mismatch configuration
error and produces no bound vectors. -/
theorem process_bounds_length_mismatch (bs : List (Option (List (Option ℚ))))
    (dim : ℕ) (dtype : Dtype) (h : bs.length ≠ dim) :
    EmitterBase.process_bounds (some bs) dim dtype =
      .error .lengthMismatch := by
  rw [EmitterBase.process_bounds, if_pos h]

/-- C2, witness: a length-2 sequence with `solution_dim = 3`. -/
theorem process_bounds_length_mismatch_witness :
    EmitterBase.process_bounds (some [none, none]) 3 .float64 =
      .error .lengthMismatch :=
  process_bounds_length_mismatch [none, none] 3 .float64 (by decide)

/-- C3: for every bounds sequence of the correct length containing a
present entry that is not exactly a 2-element pair, `_process_bounds`
raises the bad-entry configuration error. -/
theorem process_bounds_bad_entry (bs : List (Option (List (Option ℚ))))
    (dim : ℕ) (dtype : Dtype) (hlen : bs.length = dim)
    (hbad : ∃ bnd ∈ bs, ∃ l, bnd = some l ∧ l.length ≠ 2) :
    EmitterBase.process_bounds (some bs) dim dtype =
      .error .entryNotPair := by
  rw [EmitterBase.process_bounds, if_neg (by simp [hlen]),
      boundsLoop_badEntry bs hbad]

/-- C3, witness: a 1-element entry with `solution_dim = 1`. -/
theorem process_bounds_bad_entry_witness :
    EmitterBase.process_bounds (some [some [some 1]]) 1 .float64 =
      .error .entryNotPair :=
  process_bounds_bad_entry [some [some 1]] 1 .float64 rfl
    ⟨some [some 1], List.mem_singleton.mpr rfl, [some 1], rfl, by decide⟩

/-- C4: absence defaults to infinity at every level: an absent overall
bounds argument yields all `-inf` lower and `+inf` upper bounds; an absent
per-dimension entry leaves `(-inf, +inf)` at its index; an absent side of a
present pair becomes `-inf` (lower) or `+inf` (upper), and a present side
is copied through unchanged. -/
theorem process_bounds_absence_defaults (dim : ℕ) (dtype : Dtype) :
    (EmitterBase.process_bounds none dim dtype =
      .ok (⟨dtype, List.replicate dim .ninf⟩,
           ⟨dtype, List.replicate dim .pinf⟩)) ∧
    ∀ bs lb ub,
      EmitterBase.process_bounds (some bs) dim dtype = .ok (lb, ub) →
      ∀ i, i < dim →
        (bs.getD i none = none →
          lb.data.getD i .ninf = .ninf ∧ ub.data.getD i .pinf = .pinf) ∧
        ∀ l, bs.getD i none = some l →
          (l.getD 0 none = none → lb.data.getD i .ninf = .ninf) ∧
          (∀ a, l.getD 0 none = some a → lb.data.getD i .ninf = .fin a) ∧
          (l.getD 1 none = none → ub.data.getD i .pinf = .pinf) ∧
          ∀ b, l.getD 1 none = some b → ub.data.getD i .pinf = .fin b := by
  refine ⟨rfl, ?_⟩
  intro bs lb ub hok i hi
  obtain ⟨-, -, bsN, hlen, -, hsome, -, hlb, hub⟩ :=
    process_bounds_ok_char (some bs) dim dtype lb ub hok
  have hbs := hsome bs rfl
  subst hbs
  have hi' : i < bsN.length := by omega
  rw [hlb, hub, getD_map_entry entryLower .ninf bsN i hi',
      getD_map_entry entryUpper .pinf bsN i hi']
  constructor
  · intro hent
    rw [hent]
    exact ⟨rfl, rfl⟩
  · intro l hent
    rw [hent]
    refine ⟨?_, ?_, ?_, ?_⟩
    · intro h0
      simp only [entryLower, lowerOf, h0]
    · intro a h0
      simp only [entryLower, lowerOf, h0]
    · intro h1
      simp only [entryUpper, upperOf, h1]
    · intro b h1
      simp only [entryUpper, upperOf, h1]

/-- C4, witness at `solution_dim = 2`, bounds `[None, (3, None)]`: index 0
keeps `(-inf, +inf)`; index 1 copies the present lower side `3` and leaves
the absent upper side at `+inf`. -/
theorem process_bounds_absence_defaults_witness :
    ([XVal.ninf, XVal.fin 3].getD 0 .ninf = XVal.ninf ∧
     [XVal.pinf, XVal.pinf].getD 0 .pinf = XVal.pinf) ∧
    [XVal.ninf, XVal.fin 3].getD 1 .ninf = XVal.fin 3 ∧
    [XVal.pinf, XVal.pinf].getD 1 .pinf = XVal.pinf :=
  ⟨((process_bounds_absence_defaults 2 .float64).2 [none, some [some 3, none]]
      ⟨.float64, [.ninf, .fin 3]⟩ ⟨.float64, [.pinf, .pinf]⟩ (by decide)
      0 (by decide)).1 rfl,
   (((process_bounds_absence_defaults 2 .float64).2 [none, some [some 3, none]]
      ⟨.float64, [.ninf, .fin 3]⟩ ⟨.float64, [.pinf, .pinf]⟩ (by decide)
      1 (by decide)).2 [some 3, none] rfl).2.1 3 rfl,
   (((process_bounds_absence_defaults 2 .float64).2 [none, some [some 3, none]]
      ⟨.float64, [.ninf, .fin 3]⟩ ⟨.float64, [.pinf, .pinf]⟩ (by decide)
      1 (by decide)).2 [some 3, none] rfl).2.2.1 rfl⟩

/-- C5: `_process_bounds` is deterministic — equal bounds, solution
dimension and dtype give equal results.  (The staticmethod reads and
writes nothing but its parameters and two fresh local arrays, which the
embedding renders as a plain function.) -/
theorem process_bounds_deterministic (b₁ b₂ : BoundsSpec) (d₁ d₂ : ℕ)
    (t₁ t₂ : Dtype) (hb : b₁ = b₂) (hd : d₁ = d₂) (ht : t₁ = t₂) :
    EmitterBase.process_bounds b₁ d₁ t₁ =
      EmitterBase.process_bounds b₂ d₂ t₂ := by
  rw [hb, hd, ht]

/-- C5, witness at a concrete input. -/
theorem process_bounds_deterministic_witness :
    EmitterBase.process_bounds (some [none]) 1 .float32 =
      EmitterBase.process_bounds (some [none]) 1 .float32 :=
  process_bounds_deterministic (some [none]) (some [none]) 1 1
    .float32 .float32 rfl rfl rfl

/-- C9: whenever `_process_bounds` returns, both vectors have length
exactly `solution_dim` and carry the supplied dtype. -/
theorem process_bounds_shape (bounds : BoundsSpec) (dim : ℕ) (dtype : Dtype)
    (lb ub : NpArray)
    (hok : EmitterBase.process_bounds bounds dim dtype = .ok (lb, ub)) :
    lb.data.length = dim ∧ ub.data.length = dim ∧
    lb.dtype = dtype ∧ ub.dtype = dtype := by
  obtain ⟨hlbt, hubt, bsN, hlen, -, -, -, hlb, hub⟩ :=
    process_bounds_ok_char bounds dim dtype lb ub hok
  rw [hlb, hub]
  simp [hlen, hlbt, hubt]

/-- C9, witness at `bounds = [(0, 1), None]`, `solution_dim = 2`. -/
theorem process_bounds_shape_witness :
    (⟨Dtype.float32, [XVal.fin 0, XVal.ninf]⟩ : NpArray).data.length = 2 ∧
    (⟨Dtype.float32, [XVal.fin 1, XVal.pinf]⟩ : NpArray).data.length = 2 ∧
    (⟨Dtype.float32, [XVal.fin 0, XVal.ninf]⟩ : NpArray).dtype = .float32 ∧
    (⟨Dtype.float32, [XVal.fin 1, XVal.pinf]⟩ : NpArray).dtype = .float32 :=
  process_bounds_shape (some [some [some 0, some 1], none]) 2 .float32
    ⟨.float32, [.fin 0, .ninf]⟩ ⟨.float32, [.fin 1, .pinf]⟩ (by decide)

/-- C10: `EmitterBase` construction does not validate `solution_dim`:
with `solution_dim = 0` and `bounds = None` it succeeds for every archive,
storing empty lower and upper bound vectors. -/
theorem init_solution_dim_zero (archive : Archive) :
    EmitterBase.init archive 0 none =
      .ok ⟨archive, 0, ⟨archive.dtype, []⟩, ⟨archive.dtype, []⟩⟩ :=
  rfl

lemma log_twenty_lt_three : Real.log 20 < 3 := by
  rw [Real.log_lt_iff_lt_exp (by norm_num)]
  have h1 : (2.7182818283 : ℝ) ^ (3 : ℕ) ≤ Real.exp 1 ^ (3 : ℕ) :=
    pow_le_pow_left₀ (by norm_num) (le_of_lt Real.exp_one_gt_d9) 3
  have h2 : (20 : ℝ) < 2.7182818283 ^ (3 : ℕ) := by norm_num
  have h3 : Real.exp 1 ^ (3 : ℕ) = Real.exp 3 := by
    rw [Real.exp_one_pow]
    norm_num
  linarith

lemma eight_thirds_lt_log_twenty : (8 : ℝ) / 3 < Real.log 20 := by
  rw [Real.lt_log_iff_exp_lt (by norm_num)]
  have h1 : Real.exp (8 / 3 : ℝ) ^ (3 : ℕ) = Real.exp 8 := by
    rw [← Real.exp_nat_mul]
    norm_num
  have h2 : Real.exp 8 = Real.exp 1 ^ (8 : ℕ) := by
    rw [Real.exp_one_pow]
    norm_num
  have h3 : Real.exp 1 ^ (8 : ℕ) < (2.7182818286 : ℝ) ^ (8 : ℕ) :=
    pow_lt_pow_left₀ Real.exp_one_lt_d9 (le_of_lt (Real.exp_pos 1))
      (by norm_num)
  have h4 : (2.7182818286 : ℝ) ^ (8 : ℕ) < 8000 := by norm_num
  have h5 : Real.exp (8 / 3 : ℝ) ^ (3 : ℕ) < (20 : ℝ) ^ (3 : ℕ) := by
    rw [h1]
    calc Real.exp 8 = Real.exp 1 ^ (8 : ℕ) := h2
      _ < (2.7182818286 : ℝ) ^ (8 : ℕ) := h3
      _ < 8000 := h4
      _ = (20 : ℝ) ^ (3 : ℕ) := by norm_num
  exact lt_of_pow_lt_pow_left₀ 3 (by norm_num) h5

lemma floor_three_mul_log_twenty : ⌊3 * Real.log 20⌋ = 8 := by
  rw [Int.floor_eq_iff]
  have h1 := log_twenty_lt_three
  have h2 := eight_thirds_lt_log_twenty
  constructor
  · push_cast
    linarith
  · push_cast
    linarith

/-- C6: when `batch_size` is not supplied at construction, it defaults to
`4 + floor(3 · ln(solution_dim))` clipped to a minimum of 1; in particular
`solution_dim = 20` gives a defined batch size of 12. -/
theorem default_batch_size_heuristic :
    (∀ n : ℕ, resolvedBatchSize none n =
      max 1 (4 + ⌊3 * Real.log (n : ℝ)⌋)) ∧
    resolvedBatchSize none 20 = 12 := by
  refine ⟨fun n => rfl, ?_⟩
  show max 1 (4 + ⌊3 * Real.log ((20 : ℕ) : ℝ)⌋) = 12
  have hcast : ((20 : ℕ) : ℝ) = (20 : ℝ) := by norm_num
  rw [hcast, floor_three_mul_log_twenty]
  norm_num

/-- C7: calling `tell()` with `len(objectives) != len(solutions)` fails
with the spec's `ProtocolError`, whatever the emitter's state and whatever
adaptation rule the variant uses, and the emitter is left unchanged. -/
theorem tell_objective_length_mismatch (ES : Type) (e : Emitter ES)
    (b : EvaluationBatch) (update : ES → EvaluationBatch → ES)
    (h : b.objective_batch.length ≠ b.solution_batch.length) :
    Emitter.tell e b update = (e, some .lengthMismatch) := by
  rw [Emitter.tell, if_neg (fun hagree => h hagree.1)]

/-- C7, witness: an empty solution batch with one objective value. -/
theorem tell_objective_length_mismatch_witness :
    Emitter.tell
      (⟨⟨⟨.float64, 0⟩, 0, ⟨.float64, []⟩, ⟨.float64, []⟩⟩, ()⟩ : Emitter Unit)
      ⟨[], [1], [], [], []⟩ (fun es _ => es) =
      ((⟨⟨⟨.float64, 0⟩, 0, ⟨.float64, []⟩, ⟨.float64, []⟩⟩, ()⟩ : Emitter Unit),
        some .lengthMismatch) :=
  tell_objective_length_mismatch Unit
    ⟨⟨⟨.float64, 0⟩, 0, ⟨.float64, []⟩, ⟨.float64, []⟩⟩, ()⟩
    ⟨[], [1], [], [], []⟩ (fun es _ => es) (by decide)

lemma applyOp_base (ES : Type) (e : Emitter ES) (op : EmitterOp ES) :
    (e.applyOp op).base = e.base := by
  cases op with
  | askOp sampler =>
    rw [Emitter.applyOp, Emitter.ask]
  | tellOp b update =>
    rw [Emitter.applyOp, Emitter.tell]
    split <;> rfl

lemma runOps_base (ES : Type) (e : Emitter ES) (ops : List (EmitterOp ES)) :
    (Emitter.runOps e ops).base = e.base := by
  induction ops generalizing e with
  | nil => rfl
  | cons op rest ih =>
    show (Emitter.runOps (e.applyOp op) rest).base = e.base
    rw [ih (e.applyOp op), applyOp_base]

/-- C8: `archive`, `solution_dim`, `lower_bounds` and `upper_bounds` are
read-only and stable — on an emitter constructed from `archive`, `dim` and
`bounds`, every property returns exactly the value established at
construction, and no sequence of `ask`/`tell` operations changes any of
them. -/
theorem properties_read_only_and_stable (archive : Archive) (dim : ℕ)
    (bounds : BoundsSpec) (lb ub : NpArray) (eb : EmitterBaseState)
    (hpb : EmitterBase.process_bounds bounds dim archive.dtype = .ok (lb, ub))
    (hinit : EmitterBase.init archive dim bounds = .ok eb)
    (ES : Type) (es : ES) (ops : List (EmitterOp ES)) :
    EmitterBase.archive (Emitter.runOps ⟨eb, es⟩ ops).base = archive ∧
    EmitterBase.solution_dim (Emitter.runOps ⟨eb, es⟩ ops).base = dim ∧
    EmitterBase.lower_bounds (Emitter.runOps ⟨eb, es⟩ ops).base = lb ∧
    EmitterBase.upper_bounds (Emitter.runOps ⟨eb, es⟩ ops).base = ub := by
  have hbase : (Emitter.runOps (⟨eb, es⟩ : Emitter ES) ops).base = eb :=
    runOps_base ES ⟨eb, es⟩ ops
  rw [EmitterBase.init, hpb] at hinit
  injection hinit with hinit
  rw [hbase, ← hinit]
  exact ⟨rfl, rfl, rfl, rfl⟩

/-- C8, witness: a concrete emitter over a 1-dimensional solution space,
run through one `ask` and one `tell`. -/
theorem properties_read_only_and_stable_witness :
    EmitterBase.archive (Emitter.runOps
      (⟨⟨⟨.float64, 7⟩, 1, ⟨.float64, [.fin 0]⟩, ⟨.float64, [.fin 1]⟩⟩, ()⟩ :
        Emitter Unit)
      [EmitterOp.askOp (fun u => ([[0]], u)),
       EmitterOp.tellOp ⟨[[0]], [1], [[0]], [0], [0]⟩ (fun u _ => u)]).base =
      ⟨.float64, 7⟩ ∧
    EmitterBase.solution_dim (Emitter.runOps
      (⟨⟨⟨.float64, 7⟩, 1, ⟨.float64, [.fin 0]⟩, ⟨.float64, [.fin 1]⟩⟩, ()⟩ :
        Emitter Unit)
      [EmitterOp.askOp (fun u => ([[0]], u)),
       EmitterOp.tellOp ⟨[[0]], [1], [[0]], [0], [0]⟩ (fun u _ => u)]).base =
      1 ∧
    EmitterBase.lower_bounds (Emitter.runOps
      (⟨⟨⟨.float64, 7⟩, 1, ⟨.float64, [.fin 0]⟩, ⟨.float64, [.fin 1]⟩⟩, ()⟩ :
        Emitter Unit)
      [EmitterOp.askOp (fun u => ([[0]], u)),
       EmitterOp.tellOp ⟨[[0]], [1], [[0]], [0], [0]⟩ (fun u _ => u)]).base =
      ⟨.float64, [.fin 0]⟩ ∧
    EmitterBase.upper_bounds (Emitter.runOps
      (⟨⟨⟨.float64, 7⟩, 1, ⟨.float64, [.fin 0]⟩, ⟨.float64, [.fin 1]⟩⟩, ()⟩ :
        Emitter Unit)
      [EmitterOp.askOp (fun u => ([[0]], u)),
       EmitterOp.tellOp ⟨[[0]], [1], [[0]], [0], [0]⟩ (fun u _ => u)]).base =
      ⟨.float64, [.fin 1]⟩ :=
  properties_read_only_and_stable ⟨.float64, 7⟩ 1
    (some [some [some 0, some 1]]) ⟨.float64, [.fin 0]⟩ ⟨.float64, [.fin 1]⟩
    ⟨⟨.float64, 7⟩, 1, ⟨.float64, [.fin 0]⟩, ⟨.float64, [.fin 1]⟩⟩
    (by decide) (by decide) Unit ()
    [EmitterOp.askOp (fun u => ([[0]], u)),
     EmitterOp.tellOp ⟨[[0]], [1], [[0]], [0], [0]⟩ (fun u _ => u)]
